import Mathlib

/-!
Verification development for the Substack Friend Finder scan engine
(`extension/src/content/injected.js` and the popup script).

The JavaScript source is shallowly embedded: JS objects become structures,
`null`/`undefined`-able fields become `Option`, JS truthiness (`||`, `if (x)`)
is modelled by explicit helpers, JS objects used as string-keyed maps become
association lists with first-match lookup (keys are unique in all reachable
states), and the floating-point score is idealized as a real number.
-/

namespace SFF

/-! ### JS value helpers

JS truthiness for the values that occur in the source: a string is truthy iff
non-empty, a number is truthy iff non-zero, `null`/`undefined` are falsy. -/

/-- Truthiness of a JS string-or-nullish value. -/
def jsTruthyStr : Option String → Bool
  | some s => s != ""
  | none => false

/-- Truthiness of a JS number-or-nullish value (0 is falsy). -/
def jsTruthyNat : Option Nat → Bool
  | some n => n != 0
  | none => false

/-- JS `a || b` on string-or-nullish values. -/
def jsOrStr (a b : Option String) : Option String :=
  if jsTruthyStr a then a else b

/-- JS `a || b` on number-or-nullish values. -/
def jsOrNat (a b : Option Nat) : Option Nat :=
  if jsTruthyNat a then a else b

/-- JS `a || d` where `d` is a definite number: the value used in
`(subscriberCount || 1000)` and `(subscriber_count || 0)`. -/
def jsNumOr : Option Nat → Nat → Nat
  | some n, d => if n = 0 then d else n
  | none, d => d

/-- JS `a || d` where `d` is a definite string. -/
def jsStrD (a : Option String) (d : String) : String :=
  if jsTruthyStr a then a.getD d else d

/-- JS `url.includes(sub)`. -/
def jsIncludes (s sub : String) : Bool :=
  decide (sub.toList <:+: s.toList)

/-- JS `s.toLowerCase()`. Substack handles and usernames match
`[a-zA-Z0-9_-]`, on which `toLowerCase` is exactly per-character ASCII
lowering. -/
def jsToLower (s : String) : String :=
  String.mk (s.data.map Char.toLower)

/-! ### Data model -/

/-- A publication object from the profile API
(`sub.publication` in `startScan`). -/
structure Publication where
  id : Nat
  name : String
  subdomain : String
  author_id : Option Nat
  primary_user_id : Option Nat
  subscriber_count : Option Nat
  deriving DecidableEq

/-- One element of `profile.subscriptions`. -/
structure Subscription where
  publication : Option Publication
  deriving DecidableEq

/-- The `primaryPublication` sub-object of a user record (only its `url`
field is read, in `finishScan`). -/
structure PrimaryPublication where
  url : Option String
  deriving DecidableEq

/-- A raw user object inside the subscriber-lists API schema. -/
structure SourceUser where
  id : Option Nat
  handle : Option String
  username : Option String
  name : Option String
  bio : Option String
  photo_url : Option String
  primaryPublication : Option PrimaryPublication
  deriving DecidableEq

/-- The person record pushed by the extraction tiers:
`{id, handle: user.handle || user.username, name, bio, photo_url,
primaryPublication}`. -/
structure Person where
  id : Option Nat
  handle : Option String
  name : Option String
  bio : Option String
  photo_url : Option String
  primaryPublication : Option PrimaryPublication
  deriving DecidableEq

/-- Conversion applied by tiers 1 and 2 to each user in the nested schema. -/
def toPerson (u : SourceUser) : Person :=
  { id := u.id
    handle := jsOrStr u.handle u.username
    name := u.name
    bio := u.bio
    photo_url := u.photo_url
    primaryPublication := u.primaryPublication }

/-- A `group` inside a subscriber list (`list.groups[j]`). -/
structure UserGroup where
  users : Option (List SourceUser)
  deriving DecidableEq

/-- One subscriber list (`data.subscriberLists[i]`). -/
structure SubscriberList where
  groups : Option (List UserGroup)
  deriving DecidableEq

/-- The subscriber-lists API response body. -/
structure ApiResponse where
  subscriberLists : Option (List SubscriberList)
  deriving DecidableEq

/-! ### Extraction pipeline (`getUsersForPage` and its tiers) -/

/-- The nested `list → group → user` walk shared by tiers 1 and 2:
`for (const list of lists) for (const group of (list.groups || []))
for (const user of (group.users || [])) users.push({...})`. -/
def usersFromLists (lists : List SubscriberList) : List Person :=
  lists.flatMap fun l =>
    (l.groups.getD []).flatMap fun g =>
      (g.users.getD []).map toPerson

/-- `extractUsersFromApiResponse(data)`: returns `[]` when `data` or
`data.subscriberLists` is nullish, else walks the nested schema. -/
def extractUsersFromApiResponse (data : Option ApiResponse) : List Person :=
  match data with
  | none => []
  | some d =>
    match d.subscriberLists with
    | none => []
    | some lists => usersFromLists lists

/-- The users tier 2 would produce from the `__NEXT_DATA__` blob:
`none` models an absent element, a JSON parse failure, or no
`subscriberLists` found under any of the known nesting paths. -/
def tier2Users : Option (List SubscriberList) → List Person
  | some lists => usersFromLists lists
  | none => []

/-- `getUsersForPage`: tier 1 is the direct API fetch (`apiData` is the
fetched body, `none` when the fetch failed), tier 2 the embedded
`__NEXT_DATA__` lists, tier 3 the visible-DOM scrape (`domUsers` is the
deduplicated list the DOM walk produces; the DOM itself is outside the
embedding). Each tier's result is returned only when non-empty. -/
def getUsersForPage (apiData : Option ApiResponse)
    (nextLists : Option (List SubscriberList)) (domUsers : List Person) :
    List Person :=
  match apiData with
  | some d =>
    let users := extractUsersFromApiResponse (some d)
    if users ≠ [] then users
    else
      match nextLists with
      | some lists =>
        let users2 := usersFromLists lists
        if users2 ≠ [] then users2 else domUsers
      | none => domUsers
  | none =>
    match nextLists with
    | some lists =>
      let users2 := usersFromLists lists
      if users2 ≠ [] then users2 else domUsers
    | none => domUsers

/-! ### Scan planner (`startScan`) -/

/-- The newsletter metadata stored in `state.newsletters`. -/
structure NewsletterMeta where
  id : Nat
  name : String
  subdomain : String
  authorId : Option Nat
  subscriberCount : Option Nat
  deriving DecidableEq

/-- The two list kinds a newsletter is scanned for. -/
inductive PageType
  | subscribers
  | followers
  deriving DecidableEq

/-- One entry of `state.pagesToVisit`. -/
structure PageVisit where
  newsletterId : Nat
  name : String
  subdomain : String
  authorId : Option Nat
  subscriberCount : Option Nat
  pageType : PageType
  deriving DecidableEq

/-- The filter in `startScan`:
`pub && pub.subdomain && (pub.author_id || pub.primary_user_id)`
(the nullish check is handled by `filterMap` below). -/
def keepPublication (p : Publication) : Bool :=
  (p.subdomain != "") && jsTruthyNat (jsOrNat p.author_id p.primary_user_id)

/-- The sort key `(x.subscriber_count || 0)` of the planner's comparator. -/
def subCountKey (p : Publication) : Nat :=
  jsNumOr p.subscriber_count 0

/-- The planner comparator
`(a, b) => (a.subscriber_count || 0) - (b.subscriber_count || 0)` as the
boolean relation "sorts at-or-before". -/
def pubLe (a b : Publication) : Bool :=
  subCountKey a ≤ subCountKey b

/-- `startScan`'s newsletter list: map to publications, filter, then the
stable ascending sort by `(subscriber_count || 0)`. -/
def planNewsletters (subs : List Subscription) : List Publication :=
  ((subs.filterMap (·.publication)).filter keepPublication).mergeSort pubLe

/-- The `subscribers` page pushed first for a newsletter. -/
def subscribersVisit (p : Publication) : PageVisit :=
  { newsletterId := p.id
    name := p.name
    subdomain := p.subdomain
    authorId := jsOrNat p.author_id p.primary_user_id
    subscriberCount := p.subscriber_count
    pageType := PageType.subscribers }

/-- The `followers` page pushed second for a newsletter. -/
def followersVisit (p : Publication) : PageVisit :=
  { subscribersVisit p with pageType := PageType.followers }

/-- The two pushes done per newsletter in `startScan`'s loop. -/
def visitsFor (p : Publication) : List PageVisit :=
  [subscribersVisit p, followersVisit p]

/-- `pagesToVisit`: the loop body appends two visits per newsletter. -/
def buildPagesToVisit (nls : List Publication) : List PageVisit :=
  nls.flatMap visitsFor

/-- The subscriber-count key of a planned visit (for stating plan order). -/
def visitKey (v : PageVisit) : Nat :=
  jsNumOr v.subscriberCount 0

/-- `state.newsletters` entry built in `startScan`. -/
def toNewsletterMeta (p : Publication) : NewsletterMeta :=
  { id := p.id
    name := p.name
    subdomain := p.subdomain
    authorId := jsOrNat p.author_id p.primary_user_id
    subscriberCount := p.subscriber_count }

/-! ### Scan state and appearance accumulator (`processScan`, lines 222–235) -/

/-- One value of the `state.personAppearances` JS object:
`{profile, newsletterIds}`. -/
structure AppearanceEntry where
  profile : Person
  newsletterIds : List Nat
  deriving DecidableEq

/-- `state.personAppearances` as an association list in insertion order;
keys are person handles and are unique in every reachable state. -/
abbrev AppearanceMap : Type := List (String × AppearanceEntry)

/-- JS property read `m[key]` (keys are unique, so first match). -/
def lookupEntry : AppearanceMap → String → Option AppearanceEntry
  | [], _ => none
  | kv :: rest, key => if kv.1 = key then some kv.2 else lookupEntry rest key

/-- JS property write `m[key] = e` for a key already present. -/
def setEntry : AppearanceMap → String → AppearanceEntry → AppearanceMap
  | [], _, _ => []
  | kv :: rest, key, e =>
    if kv.1 = key then (key, e) :: rest else kv :: setEntry rest key e

/-- `if (!state.personAppearances[key]) state.personAppearances[key] =
{profile: user, newsletterIds: []}` — JS object insertion appends the key. -/
def ensureEntry (m : AppearanceMap) (key : String) (u : Person) : AppearanceMap :=
  match lookupEntry m key with
  | some _ => m
  | none => m ++ [(key, { profile := u, newsletterIds := [] })]

/-- `if (!entry.newsletterIds.includes(nlId)) entry.newsletterIds.push(nlId)`. -/
def addNewsletterId (m : AppearanceMap) (key : String) (nlId : Nat) : AppearanceMap :=
  match lookupEntry m key with
  | none => m
  | some e =>
    if nlId ∈ e.newsletterIds then m
    else setEntry m key { e with newsletterIds := e.newsletterIds ++ [nlId] }

/-- The key used for a person: their handle (`const key = user.handle`). -/
def personKey (u : Person) : String := u.handle.getD ""

/-- One iteration of the appearance-tracking loop, including the
`if (!user.handle) continue` guard. -/
def processPerson (m : AppearanceMap) (nlId : Nat) (u : Person) : AppearanceMap :=
  if jsTruthyStr u.handle then
    addNewsletterId (ensureEntry m (personKey u) u) (personKey u) nlId
  else m

/-- The full `for (const user of users)` appearance-tracking loop. -/
def trackAppearances (m : AppearanceMap) (users : List Person) (nlId : Nat) :
    AppearanceMap :=
  users.foldl (fun acc u => processPerson acc nlId u) m

/-- The persisted `ScanState` (`sff_scan_state`). Note it carries no
timestamp field of any kind. -/
structure ScanState where
  username : String
  profileId : Option Nat
  newsletters : List NewsletterMeta
  pagesToVisit : List PageVisit
  currentPageIndex : Nat
  personAppearances : AppearanceMap
  deriving DecidableEq

/-- The fresh state written by `startScan` before the first navigation. -/
def startScanState (username : String) (profileId : Option Nat)
    (subs : List Subscription) : ScanState :=
  let nls := planNewsletters subs
  { username := username
    profileId := profileId
    newsletters := nls.map toNewsletterMeta
    pagesToVisit := buildPagesToVisit nls
    currentPageIndex := 0
    personAppearances := [] }

/-! ### Navigator step (`processScan`) -/

/-- `url.includes('@' + currentPage.subdomain)`. -/
def urlMatchesVisit (url : String) (v : PageVisit) : Bool :=
  jsIncludes url ("@" ++ v.subdomain)

/-- What `processScan` does to the persisted state on one page load:
if the current URL matches `pagesToVisit[currentPageIndex]`, the extracted
`users` are merged and the cursor advances by one; otherwise the state is
left unchanged. -/
def stepState (st : ScanState) (url : String) (users : List Person) : ScanState :=
  match st.pagesToVisit[st.currentPageIndex]? with
  | some p =>
    if urlMatchesVisit url p then
      { st with
          personAppearances := trackAppearances st.personAppearances users p.newsletterId
          currentPageIndex := st.currentPageIndex + 1 }
    else st
  | none => st

/-- The index of the visit processed by this invocation, if any. -/
def stepProcessed (st : ScanState) (url : String) : Option Nat :=
  match st.pagesToVisit[st.currentPageIndex]? with
  | some p => if urlMatchesVisit url p then some st.currentPageIndex else none
  | none => none

/-- What `processScan` does after the (possible) processing: navigate to
`pagesToVisit[currentPageIndex]` when the cursor is still in range, else
finish the scan. -/
inductive NavOutcome
  | goto (subdomain : String) (pageType : PageType)
  | finished
  deriving DecidableEq

/-- The navigate-or-finish decision, taken on the updated state. -/
def stepOutcome (st2 : ScanState) : NavOutcome :=
  match st2.pagesToVisit[st2.currentPageIndex]? with
  | some nxt => NavOutcome.goto nxt.subdomain nxt.pageType
  | none => NavOutcome.finished

/-- One whole `processScan` invocation over the persisted state. -/
def processScanStep (st : ScanState) (url : String) (users : List Person) :
    ScanState × Option Nat × NavOutcome :=
  (stepState st url users, stepProcessed st url, stepOutcome (stepState st url users))

/-- A run of repeated page loads: each context is the URL arrived at and the
extraction-pipeline output for that page. Returns the final state and the
list of processed visit indices in order. -/
def runScan : ScanState → List (String × List Person) → ScanState × List Nat
  | st, [] => (st, [])
  | st, c :: rest =>
    let res := runScan (stepState st c.1 c.2) rest
    (res.1, (stepProcessed st c.1).toList ++ res.2)

/-! ### Scorer (`computeNichenessWeight`, `computeQualityScore`, `finishScan`) -/

/-- `1.0 / Math.log((subscriberCount || 1000) + 2)`, idealized over ℝ. -/
noncomputable def computeNichenessWeight (subscriberCount : Option Nat) : ℝ :=
  1 / Real.log ((jsNumOr subscriberCount 1000 : ℝ) + 2)

/-- `computeQualityScore(profile)`. -/
noncomputable def computeQualityScore (p : Person) : ℝ :=
  (if jsTruthyStr p.bio then 1.0 else 0) +
    (if p.primaryPublication.isSome then 2.0 else 0) +
    (if jsTruthyStr p.photo_url then 0.5 else 0)

/-- `new Map(state.newsletters.map(n => [n.id, n]))` — on duplicate ids a
JS `Map` keeps the last write, hence the reversed search. -/
def newsletterLookup (nls : List NewsletterMeta) (i : Nat) : Option NewsletterMeta :=
  nls.reverse.find? fun n => n.id == i

/-- The `sharedNewsletters` accumulated by the per-id loop in `finishScan`:
ids with no entry in the newsletter map are dropped. -/
def resolvedNewsletters (nls : List NewsletterMeta) (ids : List Nat) :
    List NewsletterMeta :=
  ids.filterMap (newsletterLookup nls)

/-- The score accumulated in `finishScan` for one person. -/
noncomputable def entryScore (nls : List NewsletterMeta) (e : AppearanceEntry) : ℝ :=
  (resolvedNewsletters nls e.newsletterIds).foldl
      (fun s n => s + computeNichenessWeight n.subscriberCount) 0
    + computeQualityScore e.profile * 0.1

/-- The `user` object pushed into a match. -/
structure MatchUser where
  id : Option Nat
  username : String
  name : String
  bio : String
  photoUrl : String
  hasPublication : Bool
  publicationUrl : String
  deriving DecidableEq

/-- One element of the `matches` array. -/
structure ScanMatch where
  user : MatchUser
  score : ℝ
  sharedNewsletters : List NewsletterMeta

/-- The field-by-field defaulting in `matches.push({user: {...}})`. -/
def mkMatchUser (p : Person) : MatchUser :=
  { id := p.id
    username := jsStrD p.handle ""
    name := jsStrD p.name (jsStrD p.handle "")
    bio := jsStrD p.bio ""
    photoUrl := jsStrD p.photo_url ""
    hasPublication := p.primaryPublication.isSome
    publicationUrl := jsStrD (p.primaryPublication.bind PrimaryPublication.url) "" }

/-- The match built for one qualifying appearance entry. -/
noncomputable def mkMatch (nls : List NewsletterMeta) (e : AppearanceEntry) : ScanMatch :=
  { user := mkMatchUser e.profile
    score := entryScore nls e
    sharedNewsletters := resolvedNewsletters nls e.newsletterIds }

/-- The `for (const [handle, data] of Object.entries(...))` loop with its two
`continue` guards (seed user, fewer than 2 accumulated newsletter ids). -/
noncomputable def collectMatches (st : ScanState) : List ScanMatch :=
  st.personAppearances.filterMap fun kv =>
    if jsToLower kv.1 = jsToLower st.username then none
    else if kv.2.newsletterIds.length < 2 then none
    else some (mkMatch st.newsletters kv.2)

/-- `matches.sort((a, b) => b.score - a.score)`: stable descending by score. -/
noncomputable def sortMatches (ms : List ScanMatch) : List ScanMatch :=
  ms.mergeSort fun a b => @decide (b.score ≤ a.score) (Real.decidableLE _ _)

/-- `finishScan`'s result list. -/
noncomputable def finishScan (st : ScanState) : List ScanMatch :=
  sortMatches (collectMatches st)

/-! ### Resume-on-load (`injected.js` lines 417–427) and the popup's
persisted scan-progress record (`popup.js` DOMContentLoaded handler) -/

/-- What the injected script does on load. -/
inductive LoadAction
  | resumeScan
  | announceReady
  deriving DecidableEq

/-- `injected.js` on load: any persisted `ScanState` schedules `processScan`
(there is no timestamp to inspect); otherwise a `READY` event is posted. -/
def injectedOnLoad : Option ScanState → LoadAction
  | some _ => LoadAction.resumeScan
  | none => LoadAction.announceReady

/-- The popup's persisted record under `substackFriendFinderScanState`.
All fields except `timestamp` come from the last saved progress event;
`timestamp` is stamped by `saveScanState`. -/
structure PopupScanState where
  inProgress : Bool
  status : Option String
  current : Option Nat
  total : Option Nat
  name : Option String
  newsletterCount : Option Nat
  matchCount : Option Nat
  timestamp : Option Nat
  deriving DecidableEq

/-- The popup sections `showSection` can reveal. -/
inductive PopupSection
  | form
  | progress
  | results
  | notSubstack
  deriving DecidableEq

/-- Observable effects of the popup's DOMContentLoaded handler. -/
inductive PopupEffect
  | clearScanState
  | showSection (s : PopupSection)
  | restoreProgress (ss : PopupScanState)
  | displayResults
  | showError (msg : String)
  deriving DecidableEq

/-- Whether an effect restores the progress display from persisted cursor
data. -/
def isRestoreEffect : PopupEffect → Bool
  | PopupEffect.restoreProgress _ => true
  | _ => false

/-- Whether an effect surfaces an error message. -/
def isErrorEffect : PopupEffect → Bool
  | PopupEffect.showError _ => true
  | _ => false

/-- `const ONE_HOUR = 60 * 60 * 1000`. -/
def ONE_HOUR : Nat := 60 * 60 * 1000

/-- The cached-results branch at the end of the handler:
`cached && cached.matches && cached.matches.length > 0` (here `cachedCount`
is the stored match count, `none` when no record exists). -/
def afterScanCheck (cachedCount : Option Nat) : List PopupEffect :=
  match cachedCount with
  | some n =>
    if 0 < n then [PopupEffect.displayResults, PopupEffect.showSection PopupSection.results]
    else [PopupEffect.showSection PopupSection.form]
  | none => [PopupEffect.showSection PopupSection.form]

/-- The popup's DOMContentLoaded handler: not-Substack guard, then the
in-progress branch with the one-hour staleness check
(`scanState.timestamp && (now - scanState.timestamp > ONE_HOUR)`), then the
cached-results fallback. -/
def popupOnLoad (isSubstack : Bool) (scanState : Option PopupScanState)
    (now : Nat) (cachedCount : Option Nat) : List PopupEffect :=
  if !isSubstack then [PopupEffect.showSection PopupSection.notSubstack]
  else
    match scanState with
    | some ss =>
      if ss.inProgress then
        if jsTruthyNat ss.timestamp && decide (ONE_HOUR < now - ss.timestamp.getD 0) then
          PopupEffect.clearScanState :: afterScanCheck cachedCount
        else
          [PopupEffect.showSection PopupSection.progress, PopupEffect.restoreProgress ss]
      else afterScanCheck cachedCount
    | none => afterScanCheck cachedCount

/-! ### Concrete data used by witnesses and counterexamples -/

/-- A person record with an empty bio, as first extracted. -/
def bobFirst : Person :=
  { id := some 1
    handle := some "bob"
    name := some "Bob"
    bio := none
    photo_url := none
    primaryPublication := none }

/-- A newer record for the same handle carrying a non-empty bio. -/
def bobSecond : Person :=
  { id := some 1
    handle := some "bob"
    name := some "Bob"
    bio := some "hello"
    photo_url := none
    primaryPublication := none }

/-- A person appearing in two newsletters (ids 1 and 2). -/
def alicePerson : Person :=
  { id := some 7
    handle := some "alice"
    name := some "Alice"
    bio := some "writer"
    photo_url := none
    primaryPublication := none }

/-- Alice's accumulated appearance entry. -/
def aliceEntry : AppearanceEntry :=
  { profile := alicePerson, newsletterIds := [1, 2] }

/-- A scan state at completion: one candidate, no newsletter metadata for
the candidate's two ids, seed user `seed`. -/
def demoFinishedState : ScanState :=
  { username := "seed"
    profileId := some 99
    newsletters := []
    pagesToVisit := []
    currentPageIndex := 0
    personAppearances := [("alice", aliceEntry)] }

/-- A second copy of the finished state used to exercise the raw-id
min-overlap behaviour. -/
def rawIdState : ScanState :=
  { username := "seed"
    profileId := some 99
    newsletters := []
    pagesToVisit := []
    currentPageIndex := 0
    personAppearances := [("alice", aliceEntry)] }

/-- A publication for planner witnesses. -/
def demoPub : Publication :=
  { id := 5
    name := "Tiny Letter"
    subdomain := "tiny"
    author_id := some 11
    primary_user_id := none
    subscriber_count := some 40 }

/-- A one-element subscription list. -/
def demoSubs : List Subscription := [{ publication := some demoPub }]

/-- A mid-scan state for resumption witnesses: two planned visits, cursor 0. -/
def demoScanState : ScanState :=
  { username := "seed"
    profileId := some 99
    newsletters := [toNewsletterMeta demoPub]
    pagesToVisit := buildPagesToVisit [demoPub]
    currentPageIndex := 0
    personAppearances := [] }

/-- An API response whose nested schema contains no users (tier 1 empty). -/
def emptyApiResponse : ApiResponse :=
  { subscriberLists := some [{ groups := some [{ users := some [] }] }] }

/-- A source user for extraction witnesses. -/
def zoeSource : SourceUser :=
  { id := some 3
    handle := some "zoe"
    username := some "zoe-user"
    name := some "Zoe"
    bio := none
    photo_url := none
    primaryPublication := none }

/-- A `__NEXT_DATA__` list carrying exactly one user. -/
def zoeLists : List SubscriberList :=
  [{ groups := some [{ users := some [zoeSource] }] }]

/-- A popup scan-state snapshot saved at time 0 while a scan was running. -/
def stalePopupState : PopupScanState :=
  { inProgress := true
    status := none
    current := some 4
    total := some 10
    name := some "Tiny Letter"
    newsletterCount := some 5
    matchCount := some 3
    timestamp := some 1 }

/-- 61 minutes after the stale snapshot's timestamp. -/
def staleNow : Nat := 1 + 61 * 60 * 1000

/-- An appearance map already holding Bob's first record under newsletter 1. -/
def bobMap : AppearanceMap :=
  [("bob", { profile := bobFirst, newsletterIds := [1] })]

/-- Two page loads matching the two planned visits of `demoScanState`. -/
def demoCtxs : List (String × List Person) :=
  [("https://substack.com/@tiny/subscribers", []),
   ("https://substack.com/@tiny/followers", [])]

/-! ## Theorems -/

/-- Evaluation of the weight at a known non-zero count. -/
theorem computeNichenessWeight_pos (c : Nat) (hc : c ≠ 0) :
    computeNichenessWeight (some c) = 1 / Real.log ((c : ℝ) + 2) := by
  simp [computeNichenessWeight, jsNumOr, hc]

/-- Evaluation of the weight when the count is missing. -/
theorem computeNichenessWeight_none :
    computeNichenessWeight none = 1 / Real.log 1002 := by
  norm_num [computeNichenessWeight, jsNumOr]

/-- Evaluation of the weight at a known zero count: the JS `||` fallback
fires. -/
theorem computeNichenessWeight_zero :
    computeNichenessWeight (some 0) = 1 / Real.log 1002 := by
  norm_num [computeNichenessWeight, jsNumOr]

/-- C4 counterexample: a newsletter with the known subscriber count 0 does
not get the weight `1 / ln(0 + 2)`; the code's `(subscriberCount || 1000)`
treats the known value 0 as missing and substitutes 1000. -/
theorem nicheness_formula_cex :
    computeNichenessWeight (some 0) ≠ 1 / Real.log ((0 : ℝ) + 2) := by
  rw [computeNichenessWeight_zero]
  have h2 : (0 : ℝ) + 2 = 2 := by norm_num
  rw [h2]
  have hl2 : (0 : ℝ) < Real.log 2 := Real.log_pos (by norm_num)
  have hlt : Real.log 2 < Real.log 1002 := Real.log_lt_log (by norm_num) (by norm_num)
  exact ne_of_lt (one_div_lt_one_div_of_lt hl2 hlt)

/-- C4 (amended): for every shared newsletter with a known non-zero
subscriber count the weight is `1 / ln(count + 2)`; a missing count — and,
by JS falsiness, a known zero count — yields the fixed fallback
`1 / ln(1002)`; a candidate appearing in newsletters with counts 100 and
1,000,000 gets the base score `1/ln(102) + 1/ln(1000002)`. -/
theorem nicheness_formula (c : Nat) (hc : 0 < c) :
    computeNichenessWeight (some c) = 1 / Real.log ((c : ℝ) + 2) ∧
    computeNichenessWeight none = 1 / Real.log 1002 ∧
    computeNichenessWeight (some 0) = 1 / Real.log 1002 ∧
    computeNichenessWeight (some 100) + computeNichenessWeight (some 1000000) =
      1 / Real.log 102 + 1 / Real.log 1000002 := by
  refine ⟨computeNichenessWeight_pos c hc.ne', computeNichenessWeight_none,
    computeNichenessWeight_zero, ?_⟩
  rw [computeNichenessWeight_pos 100 (by norm_num),
    computeNichenessWeight_pos 1000000 (by norm_num)]
  norm_num

/-- C4 witness at count 100. -/
theorem nicheness_formula_witness :
    computeNichenessWeight (some 100) = 1 / Real.log ((100 : ℝ) + 2) :=
  (nicheness_formula 100 (by norm_num)).1

/-- C5 counterexample: 0 < 1 but the weight of a count-0 newsletter is
strictly smaller than that of a count-1 newsletter, because the JS `||`
fallback replaces the known count 0 with 1000. -/
theorem nicheness_monotonicity_cex :
    (0 : Nat) < 1 ∧
      computeNichenessWeight (some 0) < computeNichenessWeight (some 1) := by
  refine ⟨by norm_num, ?_⟩
  rw [computeNichenessWeight_zero, computeNichenessWeight_pos 1 (by norm_num)]
  have h3 : (0 : ℝ) < Real.log (((1 : Nat) : ℝ) + 2) := Real.log_pos (by norm_num)
  have hlt : Real.log (((1 : Nat) : ℝ) + 2) < Real.log 1002 :=
    Real.log_lt_log (by norm_num) (by norm_num)
  exact one_div_lt_one_div_of_lt h3 hlt

/-- C5 (amended): strict monotonicity holds on non-zero known counts:
for `0 < a < b` the weight of count `b` is strictly below that of count `a`. -/
theorem nicheness_monotone (a b : Nat) (ha : 0 < a) (hab : a < b) :
    computeNichenessWeight (some b) < computeNichenessWeight (some a) := by
  rw [computeNichenessWeight_pos a ha.ne', computeNichenessWeight_pos b (by omega)]
  have h1 : (1 : ℝ) < (a : ℝ) + 2 := by
    have : (1 : ℝ) ≤ (a : ℝ) := by exact_mod_cast ha
    linarith
  have h2 : (a : ℝ) + 2 < (b : ℝ) + 2 := by
    have : (a : ℝ) < (b : ℝ) := by exact_mod_cast hab
    linarith
  exact one_div_lt_one_div_of_lt (Real.log_pos h1) (Real.log_lt_log (by linarith) h2)

/-- C5 witness at counts 1 and 2. -/
theorem nicheness_monotone_witness :
    computeNichenessWeight (some 2) < computeNichenessWeight (some 1) :=
  nicheness_monotone 1 2 (by norm_num) (by norm_num)

/-- C7 counterexample: with the popup's persisted scan record 61 minutes
old, the load handler clears it and falls through to the form — no failure
of any kind is surfaced — while the injected script's own `ScanState`
(which carries no timestamp at all) triggers resumption unconditionally. -/
theorem staleness_cex :
    popupOnLoad true (some stalePopupState) staleNow none =
      [PopupEffect.clearScanState, PopupEffect.showSection PopupSection.form] ∧
    (popupOnLoad true (some stalePopupState) staleNow none).all
      (fun e => !isErrorEffect e && !isRestoreEffect e) = true ∧
    injectedOnLoad (some demoScanState) = LoadAction.resumeScan := by
  refine ⟨by decide, by decide, rfl⟩

/-- C7 (amended): when the popup's persisted scan record is in progress and
its timestamp is truthy and more than one hour old, the load handler clears
the record and does not restore any progress display from it; it surfaces
no stale-failure, silently falling back to cached results or the input
form. -/
theorem staleness_discard (ss : PopupScanState) (now : Nat) (cached : Option Nat)
    (hip : ss.inProgress = true) (hts : jsTruthyNat ss.timestamp = true)
    (hstale : ONE_HOUR < now - ss.timestamp.getD 0) :
    popupOnLoad true (some ss) now cached =
      PopupEffect.clearScanState :: afterScanCheck cached ∧
    (popupOnLoad true (some ss) now cached).all
      (fun e => !isErrorEffect e && !isRestoreEffect e) = true := by
  have h : popupOnLoad true (some ss) now cached =
      PopupEffect.clearScanState :: afterScanCheck cached := by
    simp [popupOnLoad, hip, hts, hstale]
  refine ⟨h, ?_⟩
  rw [h]
  rcases cached with _ | n
  · decide
  · by_cases h0 : 0 < n <;>
      simp [afterScanCheck, h0, isErrorEffect, isRestoreEffect]

/-- C7 witness: the amended statement applied to the concrete 61-minute-old
snapshot. -/
theorem staleness_discard_witness :
    popupOnLoad true (some stalePopupState) staleNow (some 2) =
      PopupEffect.clearScanState :: afterScanCheck (some 2) :=
  (staleness_discard stalePopupState staleNow (some 2) rfl (by decide) (by decide)).1

/-- Appending a fresh key at the end does not disturb a successful lookup. -/
theorem lookupEntry_append_some (m : AppearanceMap) (k : String)
    (e : AppearanceEntry) (kv : String × AppearanceEntry)
    (h : lookupEntry m k = some e) :
    lookupEntry (m ++ [kv]) k = some e := by
  induction m with
  | nil => simp [lookupEntry] at h
  | cons a rest ih =>
    by_cases hk : a.1 = k
    · simp only [lookupEntry, hk, if_pos] at h
      simpa [lookupEntry, hk] using h
    · simp only [lookupEntry, hk, if_neg, not_false_iff] at h
      simpa [lookupEntry, hk] using ih h

/-- Appending a key that was absent makes it found with the appended value. -/
theorem lookupEntry_append_none (m : AppearanceMap) (k : String)
    (e : AppearanceEntry) (h : lookupEntry m k = none) :
    lookupEntry (m ++ [(k, e)]) k = some e := by
  induction m with
  | nil => simp [lookupEntry]
  | cons a rest ih =>
    by_cases hk : a.1 = k
    · simp [lookupEntry, hk] at h
    · simp only [lookupEntry, hk, if_neg, not_false_iff] at h
      simpa [lookupEntry, hk] using ih h

/-- Overwriting a present key is observed by lookup. -/
theorem lookupEntry_setEntry_self (m : AppearanceMap) (k : String)
    (e : AppearanceEntry) (h : (lookupEntry m k).isSome) :
    lookupEntry (setEntry m k e) k = some e := by
  induction m with
  | nil => simp [lookupEntry] at h
  | cons a rest ih =>
    by_cases hk : a.1 = k
    · simp [setEntry, hk, lookupEntry]
    · simp only [lookupEntry, hk, if_neg, not_false_iff] at h
      simpa [setEntry, hk, lookupEntry] using ih h

/-- Overwriting one key leaves every other key's lookup unchanged. -/
theorem lookupEntry_setEntry_other (m : AppearanceMap) (k key : String)
    (e : AppearanceEntry) (hne : k ≠ key) :
    lookupEntry (setEntry m key e) k = lookupEntry m k := by
  induction m with
  | nil => simp [setEntry, lookupEntry]
  | cons a rest ih =>
    by_cases hk : a.1 = key
    · have : key ≠ k := hne.symm
      simp [setEntry, hk, lookupEntry, this]
    · simp [setEntry, hk, lookupEntry, ih]

/-- One accumulator iteration can only leave an existing entry alone or
append the current newsletter id to its id list; the stored profile
snapshot is never touched. -/
theorem lookupEntry_processPerson (m : AppearanceMap) (nlId : Nat) (u : Person)
    (k : String) (e : AppearanceEntry) (h : lookupEntry m k = some e) :
    lookupEntry (processPerson m nlId u) k = some e ∨
    lookupEntry (processPerson m nlId u) k =
      some { profile := e.profile, newsletterIds := e.newsletterIds ++ [nlId] } := by
  unfold processPerson
  by_cases ht : jsTruthyStr u.handle
  case neg => simpa [ht] using Or.inl h
  simp only [ht, if_pos]
  unfold ensureEntry
  cases hke : lookupEntry m (personKey u) with
  | some e0 =>
    unfold addNewsletterId
    rw [hke]
    by_cases hmem : nlId ∈ e0.newsletterIds
    · simpa [hmem] using Or.inl h
    · simp only [hmem, if_neg, not_false_iff]
      by_cases hk : k = personKey u
      · have h2 : lookupEntry m (personKey u) = some e := hk ▸ h
        have he : e0 = e := Option.some.inj (hke.symm.trans h2)
        right
        rw [hk, ← he]
        exact lookupEntry_setEntry_self m (personKey u) _ (by rw [hke]; rfl)
      · rw [lookupEntry_setEntry_other m k (personKey u) _ hk]
        exact Or.inl h
  | none =>
    have hk : k ≠ personKey u := by
      intro hh
      rw [hh, hke] at h
      cases h
    unfold addNewsletterId
    have hke2 : lookupEntry (m ++ [(personKey u, ⟨u, []⟩)]) (personKey u) =
        some ⟨u, []⟩ := lookupEntry_append_none m _ _ hke
    rw [hke2]
    simp only [List.not_mem_nil, if_neg, not_false_iff]
    rw [lookupEntry_setEntry_other _ k (personKey u) _ hk]
    exact Or.inl (lookupEntry_append_some m k e _ h)

/-- After one accumulator iteration, the processed person's handle maps to
an entry containing the current newsletter id. -/
theorem processPerson_establishes (m : AppearanceMap) (nlId : Nat) (u : Person)
    (ht : jsTruthyStr u.handle = true) :
    ∃ e, lookupEntry (processPerson m nlId u) (personKey u) = some e ∧
      nlId ∈ e.newsletterIds := by
  unfold processPerson
  simp only [ht, if_pos]
  unfold ensureEntry
  cases hke : lookupEntry m (personKey u) with
  | some e0 =>
    unfold addNewsletterId
    rw [hke]
    by_cases hmem : nlId ∈ e0.newsletterIds
    · simpa [hmem] using ⟨e0, hke, hmem⟩
    · simp only [hmem, if_neg, not_false_iff]
      exact ⟨_, lookupEntry_setEntry_self m _ _ (by rw [hke]; rfl), by simp⟩
  | none =>
    unfold addNewsletterId
    have hke2 : lookupEntry (m ++ [(personKey u, ⟨u, []⟩)]) (personKey u) =
        some ⟨u, []⟩ := lookupEntry_append_none m _ _ hke
    rw [hke2]
    simp only [List.not_mem_nil, if_neg, not_false_iff]
    exact ⟨_, lookupEntry_setEntry_self _ _ _ (by rw [hke2]; rfl), by simp⟩

/-- An accumulator iteration whose person is already recorded with the
current newsletter id is a no-op on the whole map. -/
theorem processPerson_noop (m : AppearanceMap) (nlId : Nat) (u : Person)
    (h : jsTruthyStr u.handle = true →
      ∃ e, lookupEntry m (personKey u) = some e ∧ nlId ∈ e.newsletterIds) :
    processPerson m nlId u = m := by
  unfold processPerson
  by_cases ht : jsTruthyStr u.handle
  · obtain ⟨e, he, hmem⟩ := h ht
    simp only [ht, if_pos]
    unfold ensureEntry
    rw [he]
    unfold addNewsletterId
    rw [he]
    simp [hmem]
  · simp [ht]

/-- Tracking a whole extracted list preserves every existing entry's
profile snapshot and only extends its newsletter-id list. -/
theorem lookupEntry_trackAppearances (users : List Person) (m : AppearanceMap)
    (nlId : Nat) (k : String) (e : AppearanceEntry)
    (h : lookupEntry m k = some e) :
    ∃ ids, lookupEntry (trackAppearances m users nlId) k =
        some { profile := e.profile, newsletterIds := ids } ∧
      ∀ x ∈ e.newsletterIds, x ∈ ids := by
  induction users generalizing m e with
  | nil =>
    refine ⟨e.newsletterIds, ?_, fun x hx => hx⟩
    simpa [trackAppearances] using h
  | cons u us ih =>
    rcases lookupEntry_processPerson m nlId u k e h with h1 | h1
    · obtain ⟨ids, hh, hsub⟩ := ih (processPerson m nlId u) e h1
      exact ⟨ids, by simpa [trackAppearances] using hh, hsub⟩
    · obtain ⟨ids, hh, hsub⟩ := ih (processPerson m nlId u)
        { profile := e.profile, newsletterIds := e.newsletterIds ++ [nlId] } h1
      exact ⟨ids, by simpa [trackAppearances] using hh,
        fun x hx => hsub x (by simp [hx])⟩

/-- After one full pass over an extracted list, every person in the list
with a truthy handle is recorded with the current newsletter id. -/
theorem trackAppearances_establishes (users : List Person) (m : AppearanceMap)
    (nlId : Nat) :
    ∀ u ∈ users, jsTruthyStr u.handle = true →
      ∃ e, lookupEntry (trackAppearances m users nlId) (personKey u) = some e ∧
        nlId ∈ e.newsletterIds := by
  induction users generalizing m with
  | nil => intro u hu; cases hu
  | cons v us ih =>
    intro u hu ht
    rcases List.mem_cons.mp hu with rfl | hu
    · obtain ⟨e, he, hmem⟩ := processPerson_establishes m nlId u ht
      obtain ⟨ids, hh, hsub⟩ :=
        lookupEntry_trackAppearances us (processPerson m nlId u) nlId _ e he
      exact ⟨_, by simpa [trackAppearances] using hh, hsub _ hmem⟩
    · have := ih (processPerson m nlId v) u hu ht
      simpa [trackAppearances] using this

/-- A pass over an extracted list all of whose truthy-handled persons are
already recorded with the current newsletter id changes nothing. -/
theorem trackAppearances_noop (users : List Person) (m : AppearanceMap)
    (nlId : Nat)
    (h : ∀ u ∈ users, jsTruthyStr u.handle = true →
      ∃ e, lookupEntry m (personKey u) = some e ∧ nlId ∈ e.newsletterIds) :
    trackAppearances m users nlId = m := by
  induction users with
  | nil => rfl
  | cons u us ih =>
    have h1 : processPerson m nlId u = m := processPerson_noop m nlId u (h u (by simp))
    calc trackAppearances m (u :: us) nlId
        = trackAppearances (processPerson m nlId u) us nlId := rfl
      _ = trackAppearances m us nlId := by rw [h1]
      _ = m := ih fun v hv hvt => h v (by simp [hv]) hvt

/-- C9: the appearance accumulator is idempotent: processing the same
extracted list twice for the same page visit leaves the map — in
particular every handle's newsletter-id set — exactly as after one pass;
adding an already-present id is a no-op. -/
theorem accumulator_idempotent (m : AppearanceMap) (users : List Person)
    (nlId : Nat) :
    trackAppearances (trackAppearances m users nlId) users nlId =
      trackAppearances m users nlId :=
  trackAppearances_noop users (trackAppearances m users nlId) nlId
    (trackAppearances_establishes users m nlId)

/-- C8 counterexample: Bob's second record carries the non-empty bio
`hello`, yet after processing it the stored snapshot is still the first
record — whose bio is empty — so the claimed per-field last-write-wins
merge does not happen. -/
theorem profile_merge_cex :
    lookupEntry (trackAppearances (trackAppearances [] [bobFirst] 1)
        [bobSecond] 2) "bob" =
      some { profile := bobFirst, newsletterIds := [1, 2] } ∧
    bobSecond.bio = some "hello" ∧ bobFirst.bio = none := by
  exact ⟨by decide, rfl, rfl⟩

/-- C8 (amended): the stored profile snapshot is first-write-wins: once a
handle has an entry, later extracted records for it never modify the
snapshot — only the newsletter-id list can change. -/
theorem profile_first_write_wins (m : AppearanceMap) (users : List Person)
    (nlId : Nat) (key : String) (e : AppearanceEntry)
    (h : lookupEntry m key = some e) :
    ∃ ids, lookupEntry (trackAppearances m users nlId) key =
      some { profile := e.profile, newsletterIds := ids } := by
  obtain ⟨ids, hh, _⟩ := lookupEntry_trackAppearances users m nlId key e h
  exact ⟨ids, hh⟩

/-- C8 witness: Bob's existing entry keeps `bobFirst` as its snapshot while
his second record is processed. -/
theorem profile_first_write_wins_witness :
    ∃ ids, lookupEntry (trackAppearances bobMap [bobSecond] 2) "bob" =
      some { profile := bobFirst, newsletterIds := ids } :=
  profile_first_write_wins bobMap [bobSecond] 2 "bob"
    { profile := bobFirst, newsletterIds := [1] } (by decide)

/-- A `processScan` invocation that processes nothing leaves the state
untouched. -/
theorem stepState_of_processed_none (st : ScanState) (url : String)
    (users : List Person) (h : stepProcessed st url = none) :
    stepState st url users = st := by
  unfold stepProcessed at h
  unfold stepState
  cases hp : st.pagesToVisit[st.currentPageIndex]? with
  | none => rfl
  | some p =>
    rw [hp] at h
    by_cases hu : urlMatchesVisit url p
    · simp [hu] at h
    · simp [hu]

/-- A `processScan` invocation that processes a visit processes exactly the
cursor's visit, and advances the cursor by one without touching the plan. -/
theorem stepState_of_processed_some (st : ScanState) (url : String)
    (users : List Person) (i : Nat) (h : stepProcessed st url = some i) :
    i = st.currentPageIndex ∧
    st.currentPageIndex < st.pagesToVisit.length ∧
    (stepState st url users).currentPageIndex = st.currentPageIndex + 1 ∧
    (stepState st url users).pagesToVisit = st.pagesToVisit := by
  unfold stepProcessed at h
  cases hp : st.pagesToVisit[st.currentPageIndex]? with
  | none => rw [hp] at h; cases h
  | some p =>
    rw [hp] at h
    by_cases hu : urlMatchesVisit url p
    · simp only [hu, if_pos, Option.some.injEq] at h
      obtain ⟨hlt, _⟩ := List.getElem?_eq_some.mp hp
      refine ⟨h.symm, hlt, ?_, ?_⟩ <;> simp [stepState, hp, hu]
    · simp [hu] at h

/-- Any run of page loads starting at cursor `k` processes exactly the
contiguous index block `[k, k + m)` in order, ends with the cursor at
`k + m`, and never changes the plan. -/
theorem runScan_range (ctxs : List (String × List Person)) :
    ∀ st : ScanState, st.currentPageIndex ≤ st.pagesToVisit.length →
    ∃ m, (runScan st ctxs).2 = List.range' st.currentPageIndex m ∧
      st.currentPageIndex + m ≤ st.pagesToVisit.length ∧
      (runScan st ctxs).1.currentPageIndex = st.currentPageIndex + m ∧
      (runScan st ctxs).1.pagesToVisit = st.pagesToVisit := by
  induction ctxs with
  | nil =>
    intro st h
    exact ⟨0, by simp [runScan], by omega, by simp [runScan], by simp [runScan]⟩
  | cons c rest ih =>
    intro st h
    cases hsp : stepProcessed st c.1 with
    | none =>
      have hss := stepState_of_processed_none st c.1 c.2 hsp
      obtain ⟨m, h1, h2, h3, h4⟩ := ih st h
      refine ⟨m, ?_, h2, ?_, ?_⟩
      · show (stepProcessed st c.1).toList ++
            (runScan (stepState st c.1 c.2) rest).2 = _
        rw [hsp, hss]
        simpa using h1
      · show (runScan (stepState st c.1 c.2) rest).1.currentPageIndex = _
        rw [hss]
        exact h3
      · show (runScan (stepState st c.1 c.2) rest).1.pagesToVisit = _
        rw [hss]
        exact h4
    | some i =>
      obtain ⟨hi, hlt, hcur, hpg⟩ := stepState_of_processed_some st c.1 c.2 i hsp
      obtain ⟨m, h1, h2, h3, h4⟩ := ih (stepState st c.1 c.2) (by rw [hcur, hpg]; omega)
      subst hi
      rw [hcur] at h3
      rw [hcur, hpg] at h2
      refine ⟨m + 1, ?_, by omega, ?_, ?_⟩
      · show (stepProcessed st c.1).toList ++
            (runScan (stepState st c.1 c.2) rest).2 = _
        rw [hsp, h1, hcur, List.range'_succ]
        simp
      · show (runScan (stepState st c.1 c.2) rest).1.currentPageIndex = _
        omega
      · show (runScan (stepState st c.1 c.2) rest).1.pagesToVisit = _
        rw [h4, hpg]

/-- C1: resuming from a persisted state with cursor `k` processes only the
visits at indices `k, k+1, …` in strict plan order — never any index below
`k`, never skipping — and each single invocation either processes nothing
and leaves the cursor at `k`, or processes exactly visit `k` and advances
the cursor to `k + 1`. -/
theorem resumption_correctness (st : ScanState) (k : Nat)
    (hk : st.currentPageIndex = k) (hle : k ≤ st.pagesToVisit.length)
    (ctxs : List (String × List Person)) :
    (∃ m, (runScan st ctxs).2 = List.range' k m ∧
      k + m ≤ st.pagesToVisit.length ∧
      (runScan st ctxs).1.currentPageIndex = k + m ∧
      (runScan st ctxs).1.pagesToVisit = st.pagesToVisit) ∧
    (∀ url users,
      (stepProcessed st url = none ∧
        (stepState st url users).currentPageIndex = k) ∨
      (stepProcessed st url = some k ∧
        (stepState st url users).currentPageIndex = k + 1)) := by
  subst hk
  refine ⟨runScan_range ctxs st hle, ?_⟩
  intro url users
  cases hsp : stepProcessed st url with
  | none =>
    exact Or.inl ⟨rfl, by rw [stepState_of_processed_none st url users hsp]⟩
  | some i =>
    obtain ⟨hi, _, hcur, _⟩ := stepState_of_processed_some st url users i hsp
    exact Or.inr ⟨by rw [hi], hcur⟩

/-- C1 witness: a two-visit plan resumed at cursor 0 with two matching page
loads. -/
theorem resumption_correctness_witness :
    ∃ m, (runScan demoScanState demoCtxs).2 = List.range' 0 m ∧
      0 + m ≤ demoScanState.pagesToVisit.length ∧
      (runScan demoScanState demoCtxs).1.currentPageIndex = 0 + m ∧
      (runScan demoScanState demoCtxs).1.pagesToVisit =
        demoScanState.pagesToVisit :=
  (resumption_correctness demoScanState 0 rfl (by decide) demoCtxs).1

/-- The plan is two entries per planned newsletter. -/
theorem length_buildPagesToVisit (nls : List Publication) :
    (buildPagesToVisit nls).length = 2 * nls.length := by
  induction nls with
  | nil => rfl
  | cons p rest ih =>
    simp only [buildPagesToVisit, List.flatMap_cons, List.length_append] at *
    simp only [visitsFor, List.length_cons, List.length_nil]
    omega

/-- Both visits generated for a newsletter carry its subscriber count. -/
theorem visitKey_of_mem_visitsFor (v : PageVisit) (p : Publication)
    (h : v ∈ visitsFor p) : visitKey v = subCountKey p := by
  simp only [visitsFor, List.mem_cons, List.not_mem_nil, or_false] at h
  rcases h with rfl | rfl <;> rfl

/-- A plan built from a count-sorted newsletter list is itself ordered
ascending by subscriber count. -/
theorem pairwise_buildPagesToVisit (nls : List Publication)
    (h : List.Pairwise (fun a b => subCountKey a ≤ subCountKey b) nls) :
    List.Pairwise (fun a b => visitKey a ≤ visitKey b) (buildPagesToVisit nls) := by
  induction nls with
  | nil => simp [buildPagesToVisit]
  | cons p rest ih =>
    rw [List.pairwise_cons] at h
    obtain ⟨hhead, htail⟩ := h
    rw [buildPagesToVisit, List.flatMap_cons, List.pairwise_append]
    refine ⟨?_, ih htail, ?_⟩
    · simp [visitsFor, List.pairwise_cons, visitKey_of_mem_visitsFor]
      exact le_of_eq (by rfl)
    · intro a ha b hb
      rcases List.mem_flatMap.mp hb with ⟨q, hq, hbq⟩
      rw [visitKey_of_mem_visitsFor a p ha, visitKey_of_mem_visitsFor b q hbq]
      exact hhead q hq

/-- The comparator is transitive. -/
theorem pubLe_trans (a b c : Publication) (hab : pubLe a b = true)
    (hbc : pubLe b c = true) : pubLe a c = true := by
  simp only [pubLe, decide_eq_true_eq] at *
  omega

/-- The comparator is total. -/
theorem pubLe_total (a b : Publication) : (pubLe a b || pubLe b a) = true := by
  simp only [pubLe, Bool.or_eq_true, decide_eq_true_eq]
  omega

/-- The planner's newsletter list is sorted ascending by
`(subscriber_count || 0)`. -/
theorem pairwise_planNewsletters (subs : List Subscription) :
    List.Pairwise (fun a b => subCountKey a ≤ subCountKey b)
      (planNewsletters subs) := by
  unfold planNewsletters
  exact (List.sorted_mergeSort pubLe_trans pubLe_total _).imp
    fun hab => by simpa [pubLe] using hab

/-- The plan places each newsletter's `subscribers` visit at index `2i` and
its `followers` visit immediately after, at index `2i + 1`. -/
theorem plan_pair_at (nls : List Publication) (i : Nat) (h : i < nls.length) :
    (buildPagesToVisit nls)[2 * i]? = some (subscribersVisit nls[i]) ∧
    (buildPagesToVisit nls)[2 * i + 1]? = some (followersVisit nls[i]) := by
  induction nls generalizing i with
  | nil => simp at h
  | cons p rest ih =>
    cases i with
    | zero =>
      constructor <;>
        simp [buildPagesToVisit, List.flatMap_cons, visitsFor]
    | succ j =>
      have hj : j < rest.length := by simpa using h
      obtain ⟨ha, hb⟩ := ih j hj
      have h2 : 2 * (j + 1) = 2 * j + 1 + 1 := by ring
      have h3 : 2 * (j + 1) + 1 = 2 * j + 1 + 1 + 1 := by ring
      constructor
      · rw [buildPagesToVisit, List.flatMap_cons] at *
        rw [h2]
        simpa [visitsFor, List.getElem?_cons_succ] using ha
      · rw [buildPagesToVisit, List.flatMap_cons] at *
        rw [h3]
        simpa [visitsFor, List.getElem?_cons_succ] using hb

/-- C2: for every non-empty subscription list the plan has exactly two
visits per planned newsletter, is ordered ascending by subscriber count,
pairs each newsletter's `subscribers` visit immediately before its
`followers` visit, and is deterministic in the subscription list. -/
theorem planner_spec (subs : List Subscription) (hne : subs ≠ []) :
    (buildPagesToVisit (planNewsletters subs)).length =
      2 * (planNewsletters subs).length ∧
    List.Pairwise (fun a b => visitKey a ≤ visitKey b)
      (buildPagesToVisit (planNewsletters subs)) ∧
    (∀ i, ∀ hi : i < (planNewsletters subs).length,
      (buildPagesToVisit (planNewsletters subs))[2 * i]? =
        some (subscribersVisit ((planNewsletters subs)[i])) ∧
      (buildPagesToVisit (planNewsletters subs))[2 * i + 1]? =
        some (followersVisit ((planNewsletters subs)[i]))) ∧
    (∀ subs2, subs2 = subs →
      buildPagesToVisit (planNewsletters subs2) =
        buildPagesToVisit (planNewsletters subs)) := by
  refine ⟨length_buildPagesToVisit _,
    pairwise_buildPagesToVisit _ (pairwise_planNewsletters subs),
    fun i hi => plan_pair_at _ i hi,
    fun subs2 h2 => by rw [h2]⟩

/-- C2 witness on a one-newsletter subscription list. -/
theorem planner_spec_witness :
    (buildPagesToVisit (planNewsletters demoSubs)).length =
      2 * (planNewsletters demoSubs).length :=
  (planner_spec demoSubs (by decide)).1

/-- C3: the extraction pipeline returns the first non-empty tier result —
direct API fetch, then `__NEXT_DATA__`, then the DOM scrape — and never a
merge; in particular an empty tier 1 with a non-empty tier 2 yields exactly
tier 2's records, and when every tier is empty the pipeline yields `[]`
while the scan step still advances past a matching page. -/
theorem extraction_pipeline_spec (apiData : Option ApiResponse)
    (nextLists : Option (List SubscriberList)) (domUsers : List Person) :
    (getUsersForPage apiData nextLists domUsers =
      if extractUsersFromApiResponse apiData ≠ [] then
        extractUsersFromApiResponse apiData
      else if tier2Users nextLists ≠ [] then tier2Users nextLists
      else domUsers) ∧
    (extractUsersFromApiResponse apiData = [] → tier2Users nextLists ≠ [] →
      getUsersForPage apiData nextLists domUsers = tier2Users nextLists) ∧
    (extractUsersFromApiResponse apiData = [] → tier2Users nextLists = [] →
      domUsers = [] → getUsersForPage apiData nextLists domUsers = []) ∧
    (∀ st : ScanState, ∀ url : String, ∀ p : PageVisit,
      st.pagesToVisit[st.currentPageIndex]? = some p →
      urlMatchesVisit url p = true →
      (stepState st url []).currentPageIndex = st.currentPageIndex + 1) := by
  have hmain : getUsersForPage apiData nextLists domUsers =
      if extractUsersFromApiResponse apiData ≠ [] then
        extractUsersFromApiResponse apiData
      else if tier2Users nextLists ≠ [] then tier2Users nextLists
      else domUsers := by
    cases apiData with
    | none =>
      cases nextLists with
      | none => simp [getUsersForPage, extractUsersFromApiResponse, tier2Users]
      | some lists =>
        by_cases h2 : usersFromLists lists = [] <;>
          simp [getUsersForPage, extractUsersFromApiResponse, tier2Users, h2]
    | some d =>
      cases nextLists with
      | none =>
        by_cases h1 : extractUsersFromApiResponse (some d) = [] <;>
          simp [getUsersForPage, tier2Users, h1]
      | some lists =>
        by_cases h1 : extractUsersFromApiResponse (some d) = [] <;>
          by_cases h2 : usersFromLists lists = [] <;>
            simp [getUsersForPage, tier2Users, h1, h2]
  refine ⟨hmain, ?_, ?_, ?_⟩
  · intro h1 h2
    rw [hmain]
    simp [h1, h2]
  · intro h1 h2 h3
    rw [hmain]
    simp [h1, h2, h3]
  · intro st url p hp hu
    simp [stepState, hp, hu]

/-- C3 witness: an API response with an empty nested schema and a
`__NEXT_DATA__` blob with one user — the pipeline returns tier 2's list. -/
theorem extraction_pipeline_witness :
    getUsersForPage (some emptyApiResponse) (some zoeLists) [] =
      tier2Users (some zoeLists) :=
  (extraction_pipeline_spec (some emptyApiResponse) (some zoeLists) []).2.1
    (by decide) (by decide)

/-- C6: every match in the scorer's output stems from an appearance entry
whose handle differs (case-insensitively) from the seed user's and whose
accumulated newsletter-id set has at least `min_overlap = 2` elements — so
the output contains no entry for the seed user and none below the
threshold. -/
theorem scorer_exclusions (st : ScanState) (m : ScanMatch)
    (hm : m ∈ finishScan st) :
    ∃ kv, kv ∈ st.personAppearances ∧
      jsToLower kv.1 ≠ jsToLower st.username ∧
      2 ≤ kv.2.newsletterIds.length ∧
      m = mkMatch st.newsletters kv.2 := by
  unfold finishScan sortMatches at hm
  rw [List.mem_mergeSort] at hm
  unfold collectMatches at hm
  rcases List.mem_filterMap.mp hm with ⟨kv, hkv, hf⟩
  by_cases h1 : jsToLower kv.1 = jsToLower st.username
  · rw [if_pos h1] at hf
    cases hf
  · rw [if_neg h1] at hf
    by_cases h2 : kv.2.newsletterIds.length < 2
    · rw [if_pos h2] at hf
      cases hf
    · rw [if_neg h2] at hf
      exact ⟨kv, hkv, h1, by omega, (Option.some.inj hf).symm⟩

/-- C6 witness: the single qualifying entry of `demoFinishedState`. -/
theorem scorer_exclusions_witness :
    ∃ kv, kv ∈ demoFinishedState.personAppearances ∧
      jsToLower kv.1 ≠ jsToLower demoFinishedState.username ∧
      2 ≤ kv.2.newsletterIds.length ∧
      mkMatch demoFinishedState.newsletters aliceEntry =
        mkMatch demoFinishedState.newsletters kv.2 :=
  scorer_exclusions demoFinishedState
    (mkMatch demoFinishedState.newsletters aliceEntry) (by
      unfold finishScan sortMatches
      rw [List.mem_mergeSort]
      unfold collectMatches
      refine List.mem_filterMap.mpr ⟨("alice", aliceEntry), by decide, ?_⟩
      rw [if_neg (by decide), if_neg (by decide)])

/-- The match list computed for `rawIdState`: its one candidate passes the
min-overlap test on the raw id set alone. -/
theorem collectMatches_rawIdState :
    collectMatches rawIdState = [mkMatch rawIdState.newsletters aliceEntry] := by
  unfold collectMatches
  rw [show rawIdState.personAppearances = [("alice", aliceEntry)] from rfl,
    List.filterMap_cons]
  rw [if_neg (by decide), if_neg (by decide)]
  rfl

/-- C10: the min-overlap test is applied to the raw accumulated id set:
with both of the candidate's newsletter ids missing from the metadata map,
the candidate is still emitted, its `sharedNewsletters` list is empty
(shorter than `min_overlap`), and the unresolvable ids contribute nothing —
the score is just the quality bonus. -/
theorem min_overlap_raw_ids :
    finishScan rawIdState = [mkMatch rawIdState.newsletters aliceEntry] ∧
    (mkMatch rawIdState.newsletters aliceEntry).sharedNewsletters = [] ∧
    (mkMatch rawIdState.newsletters aliceEntry).sharedNewsletters.length < 2 ∧
    (mkMatch rawIdState.newsletters aliceEntry).score =
      computeQualityScore alicePerson * 0.1 := by
  have hshared : resolvedNewsletters rawIdState.newsletters
      aliceEntry.newsletterIds = [] := by decide
  refine ⟨?_, ?_, ?_, ?_⟩
  · unfold finishScan
    rw [collectMatches_rawIdState]
    simp [sortMatches]
  · show resolvedNewsletters rawIdState.newsletters aliceEntry.newsletterIds = []
    exact hshared
  · show (resolvedNewsletters rawIdState.newsletters
      aliceEntry.newsletterIds).length < 2
    rw [hshared]
    norm_num
  · show entryScore rawIdState.newsletters aliceEntry =
      computeQualityScore alicePerson * 0.1
    unfold entryScore
    rw [hshared]
    simp [aliceEntry]

end SFF
